import Mathlib

/-!
Verification of the ParentPal AI-request core
(`src/services/ai-agent-client.ts` and `src/services/ai-service.ts`).

The TypeScript classes are shallowly embedded as pure Lean functions with
explicit state passing:
  * `RateLimiter`  — sliding 60-second window request gate;
  * `AICache`      — TTL-boxed key/value cache (a JS `Map` modelled as an
                     association list; `Map.set` replaces the binding for a
                     key, `Map.delete` removes it);
  * `AIAgentClient` — token ledger (`recordTokenUsage`, `saveTokenData`),
                     reconnect backoff, and the `processText` promise;
  * `AIService`    — `makeRequest` orchestration and the mock extractors.

`Date.now()` is passed in explicitly as an integer timestamp in
milliseconds.  JavaScript numbers that only ever hold integers are embedded
as `Int` (or `Nat` where the source value is a count); the mock events'
`confidence` values are embedded as `Rat`.
-/

namespace RateLimiter

/-- State of the `RateLimiter` class: the retained request timestamps and
the fixed per-minute quota (`limit`, default 60 in the source). -/
structure RateLimiterState where
  requests : List Int
  limit : Nat
deriving DecidableEq

/-- `canMakeRequest()`:  drop timestamps older than one minute
(`time > now - 60000` is kept), deny when the retained count has reached
the quota, otherwise record `now` and admit.  Returns the admission flag
together with the mutated state. -/
def canMakeRequest (now : Int) (st : RateLimiterState) : Bool × RateLimiterState :=
  let oneMinuteAgo := now - 60000
  let reqs := st.requests.filter (fun time => decide (oneMinuteAgo < time))
  if st.limit ≤ reqs.length then
    (false, { st with requests := reqs })
  else
    (true, { st with requests := reqs ++ [now] })

/-- `getTimeUntilNextRequest()`: zero while below quota, otherwise the wait
until the oldest retained timestamp leaves the window, floored at 0.
(`Math.min` of an empty list yields `Infinity` in the source, and
`Math.max(0, ...)` then yields 0, matching the `none` branch here.) -/
def getTimeUntilNextRequest (now : Int) (st : RateLimiterState) : Int :=
  if st.requests.length < st.limit then 0
  else
    match st.requests.min? with
    | none => 0
    | some oldest => max 0 (60000 - (now - oldest))

/-- A fresh `new RateLimiter(limit)`: no recorded requests. -/
def freshRL (limit : Nat) : RateLimiterState := { requests := [], limit := limit }

/-- Run a sequence of `canMakeRequest()` calls at the given timestamps,
returning the final state and the per-call trace `(timestamp, admitted)`. -/
def runCalls (st : RateLimiterState) : List Int → RateLimiterState × List (Int × Bool)
  | [] => (st, [])
  | t :: ts =>
    let step := canMakeRequest t st
    let rest := runCalls step.2 ts
    (rest.1, (t, step.1) :: rest.2)

/-- The timestamps of the admitted calls of a trace. -/
def admittedTimes (trace : List (Int × Bool)) : List Int :=
  (trace.filter (fun p => p.2)).map (fun p => p.1)

/-- Membership of a timestamp in the 60-second window starting at `w`. -/
def inWindow (w t : Int) : Bool :=
  decide (w ≤ t) && decide (t < w + 60000)

end RateLimiter

namespace AICache

/-- One entry of the `AICache` map: the stored value, the `Date.now()`
recorded at `set` time, and the TTL in milliseconds. -/
structure CacheEntry (α : Type) where
  data : α
  timestamp : Int
  ttl : Int
deriving DecidableEq

/-- The JS `Map<string, CacheEntry>` as an association list looked up by
first match.  `Map.set` replaces an existing binding for the key, embedded
as cons-after-erase. -/
abbrev CacheT (α : Type) : Type := List (String × CacheEntry α)

/-- `set(key, data, ttlMinutes)`: store the value with timestamp `now` and
TTL `ttlMinutes * 60 * 1000`, replacing any previous binding of the key. -/
def set {α : Type} (c : CacheT α) (key : String) (d : α) (now : Int) (ttlMinutes : Int) : CacheT α :=
  (key, { data := d, timestamp := now, ttl := ttlMinutes * 60 * 1000 })
    :: c.filter (fun p => !(p.1 == key))

/-- `get(key)`: absent for a missing key; for a present entry, when
`now - timestamp > ttl` the entry is deleted and absent is returned,
otherwise the stored value is returned.  Returns the value together with
the (possibly mutated) cache. -/
def get {α : Type} (c : CacheT α) (key : String) (now : Int) : Option α × CacheT α :=
  match List.lookup key c with
  | none => (none, c)
  | some item =>
    if item.ttl < now - item.timestamp then
      (none, c.filter (fun p => !(p.1 == key)))
    else
      (some item.data, c)

end AICache

namespace AIAgentClient

/-- `TokenUsage` record: one billed operation. -/
structure TokenUsage where
  operation : String
  tokensUsed : Int
  timestamp : Int
  cost : Option Int
deriving DecidableEq

/-- `TokenBalance` record.  `resetDate` is a `Date` held as epoch millis
(the aliasing of the `Date` object matters only for `getTokenBalance` and
is modelled separately below). -/
structure TokenBalance where
  available : Int
  used : Int
  limit : Int
  resetDate : Int
deriving DecidableEq

/-- The balance set up in the constructor: 10000 available, 0 used,
limit 10000, reset 30 days from `now`. -/
def defaultTokenBalance (now : Int) : TokenBalance :=
  { available := 10000, used := 0, limit := 10000
    resetDate := now + 30 * 24 * 60 * 60 * 1000 }

/-- The ledger part of the client state: `tokenBalance` and the in-memory
`tokenUsageHistory` array. -/
structure LedgerState where
  balance : TokenBalance
  history : List TokenUsage
deriving DecidableEq

/-- Ledger state after the constructor (empty storage): default balance and
empty history. -/
def initialLedger (now : Int) : LedgerState :=
  { balance := defaultTokenBalance now, history := [] }

/-- `recordTokenUsage(usage)`: push the record onto the in-memory history,
add `tokensUsed` to `used`, and recompute
`available = Math.max(0, limit - used)`.  (`saveTokenData()` then persists;
see `persistedHistory`.) -/
def recordTokenUsage (st : LedgerState) (usage : TokenUsage) : LedgerState :=
  let used := st.balance.used + usage.tokensUsed
  { balance := { st.balance with
      used := used
      available := max 0 (st.balance.limit - used) }
    history := st.history ++ [usage] }

/-- Run a sequence of `recordTokenUsage` calls from the initial ledger. -/
def runLedger (now : Int) (usages : List TokenUsage) : LedgerState :=
  usages.foldl recordTokenUsage (initialLedger now)

/-- `saveTokenData()` writes `history: this.tokenUsageHistory.slice(-1000)`:
the persisted history is the last 1000 entries of the in-memory history. -/
def persistedHistory (h : List TokenUsage) : List TokenUsage :=
  h.drop (h.length - 1000)

/-- The client state relevant to the connection-facing claims: the
`isConnected` flag, the ledger, and the reconnect counter.  The WebSocket
handle, message queue and event-listener map are elided; incoming
`response` events are passed to `processText` explicitly. -/
structure ClientState where
  isConnected : Bool
  tokenBalance : TokenBalance
  reconnectAttempts : Nat
deriving DecidableEq

/-- State after the constructor with empty storage and before any
`onopen` fires: not connected, default balance, zero reconnect attempts. -/
def initialClientState (now : Int) : ClientState :=
  { isConnected := false, tokenBalance := defaultTokenBalance now
    reconnectAttempts := 0 }

/-- `isConnectedToAgent()`. -/
def isConnectedToAgent (st : ClientState) : Bool := st.isConnected

/-- `maxReconnectAttempts` field (5). -/
def maxReconnectAttempts : Nat := 5

/-- `reconnectDelay` field (1000 ms base). -/
def reconnectDelay : Nat := 1000

/-- `attemptReconnect()`: while below the attempt cap, increment the
counter and schedule `connect()` after
`reconnectDelay * 2 ^ (reconnectAttempts - 1)` ms, returning that delay;
at the cap, schedule nothing (only `max_reconnect_attempts` is emitted). -/
def attemptReconnect (st : ClientState) : Option Nat × ClientState :=
  if st.reconnectAttempts < maxReconnectAttempts then
    let attempts := st.reconnectAttempts + 1
    (some (reconnectDelay * 2 ^ (attempts - 1)),
     { st with reconnectAttempts := attempts })
  else
    (none, st)

/-- `reconnect()`: `disconnect()` (close the socket, clear `isConnected`),
zero the attempt counter, and call `connect()` again (whose outcome is
external input and not part of this state). -/
def reconnect (st : ClientState) : ClientState :=
  { st with isConnected := false, reconnectAttempts := 0 }

/-- `canMakeRequest(estimatedTokens)`: admitted iff the available balance
covers the estimate. -/
def canMakeRequest (st : ClientState) (estimatedTokens : Int) : Bool :=
  decide (estimatedTokens ≤ st.tokenBalance.available)

/-- `Math.ceil(text.length / 4)` — the token estimate of `processText`. -/
def estimatedTokens (text : String) : Int :=
  ((text.length + 3) / 4 : Nat)

/-- One `response` event as delivered to the handler registered by
`processText`: the echoed operation name and the response data. -/
structure AgentResponse (δ : Type) where
  operation : String
  data : δ
deriving DecidableEq

/-- How the promise returned by `processText` settles. -/
inductive TextOutcome (δ : Type) where
  | resolved : δ → TextOutcome δ
  | rejected : String → TextOutcome δ
deriving DecidableEq

/-- `processText(text, operation)`: throw (reject) when the balance does
not cover `Math.ceil(text.length / 4)`; otherwise resolve with the data of
the first `response` event whose operation matches, and reject with
`"Text processing timeout"` when no such event arrives before the 30000 ms
timer fires.  `responses` is the list of `response` events emitted within
the 30-second timeout window, in emission order; while disconnected no
WebSocket messages arrive, so this list is empty and the outgoing message
merely sits in the queue. -/
def processText {δ : Type} (st : ClientState) (text : String) (operation : String)
    (responses : List (AgentResponse δ)) : TextOutcome δ :=
  if canMakeRequest st (estimatedTokens text) = false then
    TextOutcome.rejected "Insufficient token balance for text processing"
  else
    match responses.find? (fun r => r.operation == operation) with
    | some r => TextOutcome.resolved r.data
    | none => TextOutcome.rejected "Text processing timeout"

/-- The per-operation timeout of `processText` (ms). -/
def textTimeoutMs : Nat := 30000

end AIAgentClient

namespace AIService

/-- `AIResponse<T>`: success flag, optional data, optional error message,
optional token-usage report of the mock handler. -/
structure AIResponse (α : Type) where
  success : Bool
  data : Option α
  error : Option String
  usage : Option Nat
deriving DecidableEq

/-- The `type` field of a `ParsedEvent`. -/
inductive EventType where
  | event
  | deadline
  | meeting
deriving DecidableEq

/-- `ParsedEvent` as produced by the mock extractor. -/
structure ParsedEvent where
  title : String
  date : String
  time : String
  location : String
  description : String
  type : EventType
  attendees : List String
  confidence : Rat
deriving DecidableEq

/-- Substring search on character lists: does `pat` occur contiguously? -/
def includesAux (pat : List Char) : List Char → Bool
  | [] => pat.isPrefixOf []
  | c :: t => pat.isPrefixOf (c :: t) || includesAux pat t

/-- JS `String.prototype.includes`: substring containment. -/
def includes (s pat : String) : Bool :=
  includesAux pat.toList s.toList

/-- `text.toLowerCase()`: characterwise lowering.  (This is Lean's own
`String.toLower`, re-stated over the character list so that it reduces in
the kernel.) -/
def lowercase (s : String) : String :=
  String.mk (s.data.map Char.toLower)

/-- The hand-authored template appended when "field trip" or "museum"
occurs in the lowercased input. -/
def fieldTripEvent : ParsedEvent :=
  { title := "Science Museum Field Trip"
    date := "March 15, 2024"
    time := "9:00 AM - 3:00 PM"
    location := "Natural History Museum"
    description := "4th grade class trip with packed lunch required"
    type := EventType.event
    attendees := ["Emma"]
    confidence := 0.92 }

/-- The template appended when "conference" or "teacher" occurs. -/
def conferenceEvent : ParsedEvent :=
  { title := "Parent-Teacher Conference"
    date := "March 19, 2024"
    time := "3:30 PM"
    location := "Room 204"
    description := "Quarterly progress review"
    type := EventType.meeting
    attendees := ["Parent"]
    confidence := 0.88 }

/-- The template appended when "soccer" or "practice" occurs. -/
def soccerEvent : ParsedEvent :=
  { title := "Soccer Practice"
    date := "March 27, 2024"
    time := "4:00 PM"
    location := "Lincoln Park Field"
    description := "Weekly team practice"
    type := EventType.event
    attendees := ["Emma"]
    confidence := 0.95 }

/-- `getMockEventParsing(text)`: lowercase the input, append one template
per matching keyword trigger (triggers are independent and non-exclusive),
and return success with the collected events and a fixed usage report. -/
def getMockEventParsing (text : String) : AIResponse (List ParsedEvent) :=
  let lowerText := lowercase text
  let events :=
    (if includes lowerText "field trip" || includes lowerText "museum"
      then [fieldTripEvent] else [])
    ++ (if includes lowerText "conference" || includes lowerText "teacher"
      then [conferenceEvent] else [])
    ++ (if includes lowerText "soccer" || includes lowerText "practice"
      then [soccerEvent] else [])
  { success := true, data := some events, error := none, usage := some 150 }

/-- The rate-limit failure message of `makeRequest`:
"Rate limit exceeded. Please wait X seconds." with
`X = Math.ceil(waitTime / 1000)` (`waitTime` is never negative, so ceiling
division is `(waitTime + 999) / 1000`). -/
def rateLimitMessage (waitTime : Int) : String :=
  "Rate limit exceeded. Please wait " ++ toString ((waitTime + 999) / 1000)
    ++ " seconds."

/-- The cache stores the `data` field of a successful response, itself an
`Option`; the `if (cached)` truthiness test on a hit means a stored empty
`data` behaves like a miss, so a hit requires the stored value to be
`some v`. -/
def cacheStep {α : Type} (now : Int) (cacheKey : Option String)
    (c : AICache.CacheT (Option α)) : Option α × AICache.CacheT (Option α) :=
  match cacheKey with
  | none => (none, c)
  | some k =>
    let got := AICache.get c k now
    match got.1 with
    | some (some v) => (some v, got.2)
    | _ => (none, got.2)

/-- Combined state of the `AIService` instance and the `aiAgentClient`
singleton's ledger.  `makeRequest` lives entirely inside `AIService` and
contains no call into the ledger; carrying the ledger here lets theorems
speak about what `makeRequest` does (not do) to it. -/
structure SystemState (α : Type) where
  rateLimiter : RateLimiter.RateLimiterState
  cache : AICache.CacheT (Option α)
  agent : AIAgentClient.LedgerState
deriving DecidableEq

/-- `makeRequest(operation, prompt, cacheKey, cacheTTL)`: (1) consult the
rate limiter and on denial return a failure carrying the reported wait
time; (2) on a cache hit return the cached data as success; (3) evaluate
the handler (`getMockResponse`) — a thrown error is caught and returned as
a failure result; (4) on a successful handler response with a cache key,
store the response data with the given TTL, and return the response.
`handlerResult` is the outcome of the awaited handler call: `Except.error`
embeds a thrown/rejected error, `Except.ok` the returned response. -/
def makeRequest {α : Type} (now : Int)
    (handlerResult : Except String (AIResponse α))
    (cacheKey : Option String) (cacheTTL : Int)
    (st : SystemState α) : AIResponse α × SystemState α :=
  let rl := RateLimiter.canMakeRequest now st.rateLimiter
  if rl.1 = false then
    let waitTime := RateLimiter.getTimeUntilNextRequest now rl.2
    ({ success := false, data := none
       error := some (rateLimitMessage waitTime), usage := none },
     { st with rateLimiter := rl.2 })
  else
    let cached := cacheStep now cacheKey st.cache
    match cached.1 with
    | some v =>
      ({ success := true, data := some v, error := none, usage := none },
       { st with rateLimiter := rl.2, cache := cached.2 })
    | none =>
      match handlerResult with
      | Except.error e =>
        ({ success := false, data := none, error := some e, usage := none },
         { st with rateLimiter := rl.2, cache := cached.2 })
      | Except.ok mockResponse =>
        let newCache :=
          match cacheKey with
          | some k =>
            if mockResponse.success then
              AICache.set cached.2 k mockResponse.data now cacheTTL
            else cached.2
          | none => cached.2
        (mockResponse,
         { st with rateLimiter := rl.2, cache := newCache })

/-- The cache key of `parseEvents`.  The source truncates a base64
encoding (`btoa(text).substring(0, 32)`); the encoding itself is
irrelevant to the claims, so the key is modelled as the tagged text. -/
def parseEventsCacheKey (text : String) : String :=
  "parse_events_" ++ text

/-- `parseEvents(text)`: `makeRequest('parseEvents', text, cacheKey, 60)`;
the handler for the `parseEvents` operation is `getMockEventParsing`, which
never throws. -/
def parseEvents (text : String) (now : Int) (st : SystemState (List ParsedEvent)) :
    AIResponse (List ParsedEvent) × SystemState (List ParsedEvent) :=
  makeRequest now (Except.ok (getMockEventParsing text))
    (some (parseEventsCacheKey text)) 60 st

/-- A fresh `AIService` instance with the default limit of 60 requests per
minute, empty cache, together with the `aiAgentClient` singleton's ledger
at its defaults. -/
def freshSystem (α : Type) (now : Int) : SystemState α :=
  { rateLimiter := RateLimiter.freshRL 60
    cache := []
    agent := AIAgentClient.initialLedger now }

/-- The end-to-end scenario text of the spec. -/
def pianoText : String :=
  "Jake has a piano recital this Friday at 7 PM at the music academy"

end AIService

namespace AIAgentClient

/-- `TokenBalance` with JavaScript object identity made explicit:
`available`, `used` and `limit` are number fields held by value, while
`resetDate` is a reference to a heap-allocated `Date` object. -/
structure TokenBalanceObj where
  available : Int
  used : Int
  limit : Int
  resetDate : Nat
deriving DecidableEq

/-- The part of the JavaScript heap that `getTokenBalance` touches:
`balances` maps object references to `TokenBalance` records, `dates` maps
object references to `Date` values (epoch millis), `clientBal` is the
reference held by the client's private `tokenBalance` field, and
references below `nextRef` are the allocated ones. -/
structure World where
  balances : Nat → TokenBalanceObj
  dates : Nat → Int
  clientBal : Nat
  nextRef : Nat

/-- `getTokenBalance()`: `return { ...this.tokenBalance }` — allocate a
fresh record whose fields are copied from the client's record; the copy of
the `resetDate` field copies the reference, not the `Date` object.
Returns the reference to the fresh copy. -/
def getTokenBalance (w : World) : Nat × World :=
  (w.nextRef,
   { w with
      balances := fun n => if n = w.nextRef then w.balances w.clientBal else w.balances n
      nextRef := w.nextRef + 1 })

/-- Assignment to the `available` field of the record behind `r`
(e.g. `copy.available = v`). -/
def writeAvailable (w : World) (r : Nat) (v : Int) : World :=
  { w with
     balances := fun n => if n = r then { w.balances n with available := v } else w.balances n }

/-- In-place mutation of the `Date` behind reference `r`
(e.g. `copy.resetDate.setTime(v)`). -/
def writeDate (w : World) (r : Nat) (v : Int) : World :=
  { w with dates := fun n => if n = r then v else w.dates n }

/-- The client's internal balance record as the client observes it. -/
def observedBalance (w : World) : TokenBalanceObj :=
  w.balances w.clientBal

/-- The value of the client's internal `resetDate`, dereferenced. -/
def observedResetDate (w : World) : Int :=
  w.dates (w.balances w.clientBal).resetDate

/-- A concrete well-formed world: one allocated balance record (reference
0) with the constructor's defaults, its `resetDate` pointing at a `Date`
holding 0 at reference 0. -/
def world0 : World :=
  { balances := fun _ =>
      { available := 10000, used := 0, limit := 10000, resetDate := 0 }
    dates := fun _ => 0
    clientBal := 0
    nextRef := 1 }

end AIAgentClient

/-- Looking a key up after all its bindings are removed yields nothing. -/
lemma lookup_removeKey {α : Type} (k : String) (c : AICache.CacheT α) :
    List.lookup k (c.filter (fun p => !(p.1 == k))) = none := by
  induction c with
  | nil => simp
  | cons a t ih =>
    by_cases h : a.1 = k
    · simpa [List.filter_cons, h] using ih
    · have hk : (k == a.1) = false := beq_eq_false_iff_ne.mpr (Ne.symm h)
      simp [List.filter_cons, h, List.lookup, hk, ih]

/-- C9: after `set(k, v, ttl)`, `get(k)` returns `v` while the elapsed time
does not exceed the TTL; once it exceeds the TTL, `get(k)` returns absent,
the entry is deleted from the cache, and a repeated `get(k)` at any later
time still returns absent. -/
theorem C9_cache_ttl {α : Type} (c : AICache.CacheT α) (k : String) (v : α)
    (now ttlMinutes t t' : Int) :
    (t - now ≤ ttlMinutes * 60 * 1000 →
      (AICache.get (AICache.set c k v now ttlMinutes) k t).1 = some v)
    ∧ (ttlMinutes * 60 * 1000 < t - now →
        (AICache.get (AICache.set c k v now ttlMinutes) k t).1 = none
        ∧ List.lookup k (AICache.get (AICache.set c k v now ttlMinutes) k t).2 = none
        ∧ (AICache.get (AICache.get (AICache.set c k v now ttlMinutes) k t).2 k t').1
            = none) := by
  constructor
  · intro h
    simp only [AICache.set, AICache.get, List.lookup, beq_self_eq_true]
    rw [if_neg (by omega)]
  · intro h
    have hdel :
        AICache.get (AICache.set c k v now ttlMinutes) k t
          = (none,
             ((k, ({ data := v, timestamp := now, ttl := ttlMinutes * 60 * 1000 } :
                AICache.CacheEntry α)) :: c.filter (fun p => !(p.1 == k))).filter
               (fun p => !(p.1 == k))) := by
      simp only [AICache.set, AICache.get, List.lookup, beq_self_eq_true]
      rw [if_pos (by omega)]
    refine ⟨by rw [hdel], ?_, ?_⟩
    · rw [hdel]
      exact lookup_removeKey k _
    · rw [hdel]
      simp only [AICache.get, lookup_removeKey]

/-- C9 witness: concrete instance — value stored at time 0 with a
30-minute TTL is returned at time 1000 and absent at time 2000000. -/
theorem C9_witness :
    (AICache.get (AICache.set ([] : AICache.CacheT Nat) "k" 7 0 30) "k" 1000).1 = some 7
    ∧ (AICache.get (AICache.set ([] : AICache.CacheT Nat) "k" 7 0 30) "k" 2000000).1
        = none :=
  ⟨(C9_cache_ttl [] "k" 7 0 30 1000 0).1 (by decide),
   ((C9_cache_ttl [] "k" 7 0 30 2000000 0).2 (by decide)).1⟩

/-- C7: reconnect delays follow `1000 * 2 ^ (attempt - 1)` for attempts
1 through 5; at the attempt cap no further automatic reconnection is
scheduled; an explicit `reconnect()` zeroes the attempt counter and the
next failure schedules from the 1000 ms base again. -/
theorem C7_backoff_schedule (st : AIAgentClient.ClientState) (i : Nat)
    (h1 : 1 ≤ i) (h2 : i ≤ 5) (h3 : st.reconnectAttempts = i - 1) :
    (AIAgentClient.attemptReconnect st).1 = some (1000 * 2 ^ (i - 1))
    ∧ (AIAgentClient.attemptReconnect st).2.reconnectAttempts = i
    ∧ (∀ st' : AIAgentClient.ClientState,
        st'.reconnectAttempts = AIAgentClient.maxReconnectAttempts →
        AIAgentClient.attemptReconnect st' = (none, st'))
    ∧ (∀ st' : AIAgentClient.ClientState,
        (AIAgentClient.reconnect st').reconnectAttempts = 0
        ∧ (AIAgentClient.attemptReconnect (AIAgentClient.reconnect st')).1
            = some 1000) := by
  have hlt : i - 1 < AIAgentClient.maxReconnectAttempts := by
    simp only [AIAgentClient.maxReconnectAttempts]
    omega
  refine ⟨?_, ?_, ?_, ?_⟩
  · simp [AIAgentClient.attemptReconnect, AIAgentClient.reconnectDelay, hlt, h3]
  · simp [AIAgentClient.attemptReconnect, hlt, h3]
    omega
  · intro st' h'
    simp [AIAgentClient.attemptReconnect, h']
  · intro st'
    refine ⟨rfl, ?_⟩
    simp [AIAgentClient.attemptReconnect, AIAgentClient.reconnect,
      AIAgentClient.maxReconnectAttempts, AIAgentClient.reconnectDelay]

/-- C7 witness: at the third attempt the scheduled delay is 4000 ms. -/
theorem C7_witness :
    (AIAgentClient.attemptReconnect
        { isConnected := false, tokenBalance := AIAgentClient.defaultTokenBalance 0
          reconnectAttempts := 2 }).1 = some 4000 := by
  have h := C7_backoff_schedule
    { isConnected := false, tokenBalance := AIAgentClient.defaultTokenBalance 0
      reconnectAttempts := 2 } 3 (by decide) (by decide) rfl
  simpa using h.1

/-- C10 counterexample: the claim that mutating the record returned by
`getTokenBalance` leaves the client's internal balance unchanged fails —
the `resetDate` `Date` object is shared by the shallow copy, so mutating it
in place through the returned record changes the client's observed reset
date from 0 to 99. -/
theorem C10_counterexample :
    AIAgentClient.observedResetDate
        (AIAgentClient.writeDate (AIAgentClient.getTokenBalance AIAgentClient.world0).2
          ((AIAgentClient.getTokenBalance AIAgentClient.world0).2.balances
            (AIAgentClient.getTokenBalance AIAgentClient.world0).1).resetDate 99)
      ≠ AIAgentClient.observedResetDate AIAgentClient.world0 := by
  decide

/-- C10 amended: `getTokenBalance` returns a shallow copy — writes to the
scalar fields of the returned record are invisible to the client, but the
`resetDate` reference is shared, so an in-place mutation of the `Date`
through the copy is observed by the client. -/
theorem C10_shallow_copy (w : AIAgentClient.World) (v d : Int)
    (hwf : w.clientBal < w.nextRef) :
    AIAgentClient.observedBalance
        (AIAgentClient.writeAvailable (AIAgentClient.getTokenBalance w).2
          (AIAgentClient.getTokenBalance w).1 v)
      = AIAgentClient.observedBalance w
    ∧ ((AIAgentClient.getTokenBalance w).2.balances
        (AIAgentClient.getTokenBalance w).1).resetDate
      = ((AIAgentClient.getTokenBalance w).2.balances w.clientBal).resetDate
    ∧ AIAgentClient.observedResetDate
        (AIAgentClient.writeDate (AIAgentClient.getTokenBalance w).2
          ((AIAgentClient.getTokenBalance w).2.balances
            (AIAgentClient.getTokenBalance w).1).resetDate d)
      = d := by
  have hne : w.clientBal ≠ w.nextRef := Nat.ne_of_lt hwf
  refine ⟨?_, ?_, ?_⟩
  · simp [AIAgentClient.observedBalance, AIAgentClient.writeAvailable,
      AIAgentClient.getTokenBalance, hne]
  · simp [AIAgentClient.getTokenBalance, hne]
  · simp [AIAgentClient.observedResetDate, AIAgentClient.writeDate,
      AIAgentClient.getTokenBalance, hne]

/-- C10 witness: concrete instance of the shared-`Date` conclusion. -/
theorem C10_witness :
    AIAgentClient.observedResetDate
        (AIAgentClient.writeDate (AIAgentClient.getTokenBalance AIAgentClient.world0).2
          ((AIAgentClient.getTokenBalance AIAgentClient.world0).2.balances
            (AIAgentClient.getTokenBalance AIAgentClient.world0).1).resetDate 42)
      = 42 :=
  (C10_shallow_copy AIAgentClient.world0 5 42 (by decide)).2.2

/-- C1 counterexample: with no remote endpoint (the client never connects,
no `response` event ever arrives) `processText` does not resolve with a
locally produced result — after the 30-second timer it rejects with
"Text processing timeout", refuting "resolves ... and never rejects". -/
theorem C1_counterexample :
    AIAgentClient.processText (AIAgentClient.initialClientState 0)
        "Schedule soccer practice tomorrow" "parse_text"
        ([] : List (AIAgentClient.AgentResponse Unit))
      = AIAgentClient.TextOutcome.rejected "Text processing timeout"
    ∧ AIAgentClient.isConnectedToAgent (AIAgentClient.initialClientState 0) = false := by
  constructor
  · rfl
  · rfl

/-- C1 amended: with no configured/reachable remote endpoint,
`isConnectedToAgent()` is false throughout, and any `processText` call
whose token estimate the balance covers settles at the 30-second
per-operation timeout by rejecting with "Text processing timeout" — there
is no local fallback in `AIAgentClient`. -/
theorem C1_no_fallback_reject {δ : Type} (st : AIAgentClient.ClientState)
    (text operation : String)
    (hconn : st.isConnected = false)
    (hbal : AIAgentClient.canMakeRequest st (AIAgentClient.estimatedTokens text) = true) :
    AIAgentClient.processText st text operation
        ([] : List (AIAgentClient.AgentResponse δ))
      = AIAgentClient.TextOutcome.rejected "Text processing timeout"
    ∧ AIAgentClient.isConnectedToAgent st = false := by
  constructor
  · simp [AIAgentClient.processText, hbal]
  · simp [AIAgentClient.isConnectedToAgent, hconn]

/-- C1 witness: the amended claim at a concrete disconnected client. -/
theorem C1_witness :
    AIAgentClient.processText (AIAgentClient.initialClientState 0) "hello" "parse_text"
        ([] : List (AIAgentClient.AgentResponse Unit))
      = AIAgentClient.TextOutcome.rejected "Text processing timeout" :=
  (C1_no_fallback_reject (AIAgentClient.initialClientState 0) "hello" "parse_text"
    rfl (by decide)).1

/-- C2 counterexample: submitting the piano-recital text to the gateway's
parse operation (fresh service, fresh ledger, time 0) yields an empty event
list — no `ParsedEvent` mentioning "piano" or "music academy" exists in the
result, refuting the claim. -/
theorem C2_counterexample :
    (AIService.parseEvents AIService.pianoText 0
        (AIService.freshSystem (List AIService.ParsedEvent) 0)).1.data = some [] := by
  decide

/-- C2 amended: the piano-recital text parses successfully but to an empty
event list: none of the extractor's keyword triggers ("field trip",
"museum", "conference", "teacher", "soccer", "practice") occurs in it.  The
piano event of the scenario exists only as hardcoded mock voice-note data
in the UI component, not as gateway output. -/
theorem C2_piano_text_parses_empty :
    (AIService.parseEvents AIService.pianoText 0
        (AIService.freshSystem (List AIService.ParsedEvent) 0)).1.success = true
    ∧ (AIService.parseEvents AIService.pianoText 0
        (AIService.freshSystem (List AIService.ParsedEvent) 0)).1.data = some []
    ∧ AIService.includes (AIService.lowercase AIService.pianoText) "field trip" = false
    ∧ AIService.includes (AIService.lowercase AIService.pianoText) "museum" = false
    ∧ AIService.includes (AIService.lowercase AIService.pianoText) "conference" = false
    ∧ AIService.includes (AIService.lowercase AIService.pianoText) "teacher" = false
    ∧ AIService.includes (AIService.lowercase AIService.pianoText) "soccer" = false
    ∧ AIService.includes (AIService.lowercase AIService.pianoText) "practice" = false := by
  decide

/-- `used` after a fold of `recordTokenUsage` is the starting `used` plus
the sum of the recorded amounts. -/
lemma foldl_record_used (l : List AIAgentClient.TokenUsage)
    (st : AIAgentClient.LedgerState) :
    (l.foldl AIAgentClient.recordTokenUsage st).balance.used
      = st.balance.used + (l.map (fun u => u.tokensUsed)).sum := by
  induction l generalizing st with
  | nil => simp
  | cons u t ih =>
    simp only [List.foldl_cons, ih, AIAgentClient.recordTokenUsage, List.map_cons,
      List.sum_cons]
    ring

/-- `limit` is never touched by `recordTokenUsage`. -/
lemma foldl_record_limit (l : List AIAgentClient.TokenUsage)
    (st : AIAgentClient.LedgerState) :
    (l.foldl AIAgentClient.recordTokenUsage st).balance.limit
      = st.balance.limit := by
  induction l generalizing st with
  | nil => rfl
  | cons u t ih => simp [List.foldl_cons, ih, AIAgentClient.recordTokenUsage]

/-- The in-memory history after a fold of `recordTokenUsage` is the
starting history with every recorded usage appended, in order. -/
lemma foldl_record_history (l : List AIAgentClient.TokenUsage)
    (st : AIAgentClient.LedgerState) :
    (l.foldl AIAgentClient.recordTokenUsage st).history
      = st.history ++ l := by
  induction l generalizing st with
  | nil => simp
  | cons u t ih => simp [List.foldl_cons, ih, AIAgentClient.recordTokenUsage]

/-- The balance invariant `available = max 0 (limit - used)` is preserved
by every fold of `recordTokenUsage`. -/
lemma foldl_record_available (l : List AIAgentClient.TokenUsage)
    (st : AIAgentClient.LedgerState)
    (h : st.balance.available = max 0 (st.balance.limit - st.balance.used)) :
    (l.foldl AIAgentClient.recordTokenUsage st).balance.available
      = max 0 ((l.foldl AIAgentClient.recordTokenUsage st).balance.limit
          - (l.foldl AIAgentClient.recordTokenUsage st).balance.used) := by
  induction l generalizing st with
  | nil => simpa using h
  | cons u t ih =>
    simp only [List.foldl_cons]
    exact ih (AIAgentClient.recordTokenUsage st u) (by simp [AIAgentClient.recordTokenUsage])

/-- A list of non-negative integers has non-negative sum. -/
lemma sum_nonneg_of_mem (l : List Int) (h : ∀ x ∈ l, 0 ≤ x) : 0 ≤ l.sum := by
  induction l with
  | nil => simp
  | cons x t ih =>
    simp only [List.sum_cons]
    have hx := h x (by simp)
    have ht := ih (fun y hy => h y (by simp [hy]))
    omega

/-- C3: from the default balance, after every sequence of
`recordTokenUsage` calls with non-negative amounts, `used` equals the sum
of the recorded amounts, `available = max 0 (limit - sum)` with the default
limit 10000, and `used` is monotonically non-decreasing along the
sequence. -/
theorem C3_ledger_invariant (now : Int) (l : List AIAgentClient.TokenUsage)
    (hpos : ∀ u ∈ l, 0 ≤ u.tokensUsed) :
    (AIAgentClient.runLedger now l).balance.used
        = (l.map (fun u => u.tokensUsed)).sum
    ∧ (AIAgentClient.runLedger now l).balance.available
        = max 0 (10000 - (l.map (fun u => u.tokensUsed)).sum)
    ∧ ∀ l1 l2, l = l1 ++ l2 →
        (AIAgentClient.runLedger now l1).balance.used
          ≤ (AIAgentClient.runLedger now l).balance.used := by
  have hused : (AIAgentClient.runLedger now l).balance.used
      = (l.map (fun u => u.tokensUsed)).sum := by
    simpa [AIAgentClient.runLedger, AIAgentClient.initialLedger,
      AIAgentClient.defaultTokenBalance] using foldl_record_used l (AIAgentClient.initialLedger now)
  refine ⟨hused, ?_, ?_⟩
  · have hl : (AIAgentClient.runLedger now l).balance.limit = 10000 := by
      simpa [AIAgentClient.runLedger, AIAgentClient.initialLedger,
        AIAgentClient.defaultTokenBalance] using
        foldl_record_limit l (AIAgentClient.initialLedger now)
    have := foldl_record_available l (AIAgentClient.initialLedger now)
      (by simp [AIAgentClient.initialLedger, AIAgentClient.defaultTokenBalance])
    rw [AIAgentClient.runLedger] at *
    rw [this, hl, hused]
  · intro l1 l2 hsplit
    have h1 : (AIAgentClient.runLedger now l1).balance.used
        = (l1.map (fun u => u.tokensUsed)).sum := by
      simpa [AIAgentClient.runLedger, AIAgentClient.initialLedger,
        AIAgentClient.defaultTokenBalance] using
        foldl_record_used l1 (AIAgentClient.initialLedger now)
    have h2 : 0 ≤ ((l2.map (fun u => u.tokensUsed)).sum) := by
      refine sum_nonneg_of_mem _ ?_
      intro x hx
      obtain ⟨u, hu, rfl⟩ := List.mem_map.mp hx
      exact hpos u (by simp [hsplit, hu])
    rw [hused, h1, hsplit]
    simp only [List.map_append, List.sum_append]
    omega

/-- C3 witness: two usages of 3 and 4 tokens give `used = 7` and
`available = 9993`. -/
theorem C3_witness :
    (AIAgentClient.runLedger 0
        [{ operation := "a", tokensUsed := 3, timestamp := 0, cost := none },
         { operation := "b", tokensUsed := 4, timestamp := 1, cost := none }]).balance.used
      = 7
    ∧ (AIAgentClient.runLedger 0
        [{ operation := "a", tokensUsed := 3, timestamp := 0, cost := none },
         { operation := "b", tokensUsed := 4, timestamp := 1, cost := none }]).balance.available
      = 9993 := by
  have h := C3_ledger_invariant 0
    [{ operation := "a", tokensUsed := 3, timestamp := 0, cost := none },
     { operation := "b", tokensUsed := 4, timestamp := 1, cost := none }]
    (by intro u hu; simp at hu; rcases hu with h | h <;> simp [h])
  refine ⟨?_, ?_⟩
  · simpa using h.1
  · simpa using h.2.1

/-- The usage record of the C5 counterexample. -/
def oneTokenUsage : AIAgentClient.TokenUsage :=
  { operation := "x", tokensUsed := 1, timestamp := 0, cost := none }

/-- The in-memory history after `runLedger` is exactly the recorded
sequence. -/
lemma runLedger_history (now : Int) (l : List AIAgentClient.TokenUsage) :
    (AIAgentClient.runLedger now l).history = l := by
  simpa [AIAgentClient.runLedger, AIAgentClient.initialLedger] using
    foldl_record_history l (AIAgentClient.initialLedger now)

/-- C5 counterexample: after 1001 `recordTokenUsage` calls the in-memory
usage history held by the client has 1001 entries — the claim that the held
history never exceeds 1000 entries fails (only the persisted copy is
truncated). -/
theorem C5_counterexample :
    (AIAgentClient.runLedger 0 (List.replicate 1001 oneTokenUsage)).history.length = 1001
    ∧ ¬((AIAgentClient.runLedger 0
          (List.replicate 1001 oneTokenUsage)).history.length ≤ 1000) := by
  rw [runLedger_history, List.length_replicate]
  omega

/-- C5 amended: after every sequence of `recordTokenUsage` calls, the
history that `saveTokenData()` persists (`slice(-1000)`) has length at most
1000 and consists of the most recent entries, the oldest dropped first; the
in-memory history itself is unbounded. -/
theorem C5_persisted_history_cap (now : Int) (l : List AIAgentClient.TokenUsage) :
    (AIAgentClient.persistedHistory (AIAgentClient.runLedger now l).history).length ≤ 1000
    ∧ AIAgentClient.persistedHistory (AIAgentClient.runLedger now l).history
        = l.drop (l.length - 1000)
    ∧ (AIAgentClient.runLedger now l).history = l := by
  have h := runLedger_history now l
  refine ⟨?_, by rw [h]; rfl, h⟩
  rw [h, AIAgentClient.persistedHistory]
  simp only [List.length_drop]
  omega

/-- C4 counterexample: a successful, rate-admitted, non-cache-hit
`makeRequest` leaves the UsageLedger untouched — `used` stays 0 although
the claim requires it to grow by `ceil(len / 4) = 3` for the 11-character
input "hello world". -/
theorem C4_counterexample :
    (AIService.makeRequest 0
        (Except.ok (AIService.getMockEventParsing "hello world"))
        (some "k") 60 (AIService.freshSystem (List AIService.ParsedEvent) 0)).1.success
      = true
    ∧ (AIService.cacheStep 0 (some "k")
        (AIService.freshSystem (List AIService.ParsedEvent) 0).cache).1
      = (none : Option (List AIService.ParsedEvent))
    ∧ (AIService.makeRequest 0
        (Except.ok (AIService.getMockEventParsing "hello world"))
        (some "k") 60 (AIService.freshSystem (List AIService.ParsedEvent) 0)).2.agent.balance.used
      = 0
    ∧ AIAgentClient.estimatedTokens "hello world" = 3
    ∧ ¬((AIService.makeRequest 0
          (Except.ok (AIService.getMockEventParsing "hello world"))
          (some "k") 60 (AIService.freshSystem (List AIService.ParsedEvent) 0)).2.agent.balance.used
        = (AIService.freshSystem (List AIService.ParsedEvent) 0).agent.balance.used
            + AIAgentClient.estimatedTokens "hello world") := by
  refine ⟨by decide, by decide, by decide, by decide, by decide⟩

/-- C4 amended: `makeRequest` records nothing in the UsageLedger on any
path (success, cache hit, rate denial or handler error); the
`ceil(len / 4)` estimate appears only in the connector's `processText` as a
gate, and the only operation that adds to `used` is `recordTokenUsage`,
invoked when a remote response carries a `tokenUsage` payload. -/
theorem C4_no_gateway_recording {α : Type} (now : Int)
    (hr : Except String (AIService.AIResponse α)) (ck : Option String)
    (ttl : Int) (st : AIService.SystemState α) :
    (AIService.makeRequest now hr ck ttl st).2.agent = st.agent
    ∧ ∀ (led : AIAgentClient.LedgerState) (u : AIAgentClient.TokenUsage),
        (AIAgentClient.recordTokenUsage led u).balance.used
          = led.balance.used + u.tokensUsed := by
  constructor
  · rcases hok : RateLimiter.canMakeRequest now st.rateLimiter with ⟨ok, rl2⟩
    rcases hcs : AIService.cacheStep now ck st.cache with ⟨hit, c2⟩
    cases ok <;> cases hit <;> cases hr <;>
      simp [AIService.makeRequest, hok, hcs]
  · intro led u
    simp [AIAgentClient.recordTokenUsage]

/-- C8: the gateway never lets a failure escape as an exception — on rate
denial it returns a failure result whose error message carries the
reported wait time, and a thrown handler error on a rate-admitted
non-cache-hit request is returned as a failure result. -/
theorem C8_gateway_failure_results {α : Type} (now : Int)
    (hr : Except String (AIService.AIResponse α)) (ck : Option String)
    (ttl : Int) (st : AIService.SystemState α) (e : String) :
    ((RateLimiter.canMakeRequest now st.rateLimiter).1 = false →
      (AIService.makeRequest now hr ck ttl st).1
        = { success := false, data := none
            error := some (AIService.rateLimitMessage
              (RateLimiter.getTimeUntilNextRequest now
                (RateLimiter.canMakeRequest now st.rateLimiter).2))
            usage := none })
    ∧ ((RateLimiter.canMakeRequest now st.rateLimiter).1 = true →
        (AIService.cacheStep now ck st.cache).1 = none →
        hr = Except.error e →
        (AIService.makeRequest now hr ck ttl st).1
          = { success := false, data := none, error := some e, usage := none }) := by
  constructor
  · intro hdeny
    unfold AIService.makeRequest
    simp [hdeny]
  · intro hok1 hmiss herr
    unfold AIService.makeRequest
    simp [hok1, hmiss, herr]

/-- C8 witness: a fresh service admits the request and returns the thrown
handler error as a failure result; with a saturated limiter (quota 0) it
returns the rate-limit failure. -/
theorem C8_witness :
    (AIService.makeRequest 0
        (Except.error "boom" : Except String (AIService.AIResponse Nat))
        none 30 (AIService.freshSystem Nat 0)).1
      = { success := false, data := none, error := some "boom", usage := none }
    ∧ (AIService.makeRequest 0
        (Except.error "boom" : Except String (AIService.AIResponse Nat))
        none 30
        { rateLimiter := { requests := [], limit := 0 }, cache := []
          agent := AIAgentClient.initialLedger 0 }).1
      = { success := false, data := none
          error := some (AIService.rateLimitMessage 0), usage := none } := by
  constructor
  · exact (C8_gateway_failure_results 0
      (Except.error "boom" : Except String (AIService.AIResponse Nat)) none 30
      (AIService.freshSystem Nat 0) "boom").2 (by decide) (by decide) rfl
  · have h := (C8_gateway_failure_results 0
      (Except.error "boom" : Except String (AIService.AIResponse Nat)) none 30
      { rateLimiter := { requests := [], limit := 0 }, cache := []
        agent := AIAgentClient.initialLedger 0 } "boom").1 (by decide)
    simpa using h

/-- Filtering with a stronger predicate keeps fewer elements. -/
lemma filter_length_mono (l : List Int) (p q : Int → Bool)
    (h : ∀ x ∈ l, p x = true → q x = true) :
    (l.filter p).length ≤ (l.filter q).length := by
  induction l with
  | nil => simp
  | cons a tl ih =>
    have ih' := ih (fun x hx => h x (by simp [hx]))
    by_cases hp : p a = true
    · have hq := h a (by simp) hp
      simp only [List.filter_cons, hp, hq, if_true, List.length_cons]
      omega
    · have hp' : p a = false := by simpa using hp
      by_cases hq : q a = true
      · simp only [List.filter_cons, hp', hq, if_true, if_false, List.length_cons,
          Bool.false_eq_true]
        omega
      · have hq' : q a = false := by simpa using hq
        simpa [List.filter_cons, hp', hq'] using ih'

/-- A filter by a weaker predicate done first is absorbed. -/
lemma filter_absorb (l : List Int) (p q : Int → Bool)
    (h : ∀ x, p x = true → q x = true) :
    (l.filter q).filter p = l.filter p := by
  induction l with
  | nil => rfl
  | cons a tl ih =>
    by_cases hq : q a = true
    · by_cases hp : p a = true
      · simp [List.filter_cons, hq, hp, ih]
      · have hp' : p a = false := by simpa using hp
        simp [List.filter_cons, hq, hp', ih]
    · have hq' : q a = false := by simpa using hq
      have hp' : p a = false := by
        cases hpa : p a
        · rfl
        · exact absurd (h a hpa) (by simp [hq'])
      simp [List.filter_cons, hq', hp', ih]

/-- Unfolding of `inWindow` to a proposition. -/
lemma inWindow_eq_true (w t : Int) :
    RateLimiter.inWindow w t = true ↔ (w ≤ t ∧ t < w + 60000) := by
  simp [RateLimiter.inWindow]

/-- The admitted-times list of a trace unfolds per call. -/
lemma admittedTimes_cons (t : Int) (b : Bool) (rest : List (Int × Bool)) :
    RateLimiter.admittedTimes ((t, b) :: rest)
      = (if b then [t] else []) ++ RateLimiter.admittedTimes rest := by
  cases b <;> simp [RateLimiter.admittedTimes]

/-- Quota invariant of the rate limiter, in inductive form: if `requests`
holds exactly the previously admitted timestamps younger than one minute,
and every 60-second window holds at most `limit` of the previously
admitted timestamps, both remain true after any further calls at
non-decreasing timestamps. -/
lemma runCalls_quota (ts : List Int) :
    ∀ (st : RateLimiter.RateLimiterState) (A : List Int) (now0 : Int),
    List.Pairwise (fun a b => a ≤ b) ts →
    (∀ t ∈ ts, now0 ≤ t) →
    (∀ a ∈ A, a ≤ now0) →
    st.requests = A.filter (fun x => decide (now0 - 60000 < x)) →
    (∀ w : Int, (A.filter (RateLimiter.inWindow w)).length ≤ st.limit) →
    ∀ w : Int,
      ((A ++ RateLimiter.admittedTimes (RateLimiter.runCalls st ts).2).filter
          (RateLimiter.inWindow w)).length ≤ st.limit := by
  induction ts with
  | nil =>
    intro st A now0 _ _ _ _ hcount w
    simpa [RateLimiter.runCalls, RateLimiter.admittedTimes] using hcount w
  | cons t ts ih =>
    intro st A now0 hsort hts hA hreq hcount w
    have hnow0t : now0 ≤ t := hts t (by simp)
    have hts' : ∀ x ∈ ts, t ≤ x := (List.pairwise_cons.mp hsort).1
    have hsort' : List.Pairwise (fun a b => a ≤ b) ts :=
      (List.pairwise_cons.mp hsort).2
    have hA' : ∀ a ∈ A ++ [t], a ≤ t := by
      intro a ha
      rcases List.mem_append.mp ha with h | h
      · exact le_trans (hA a h) hnow0t
      · simp at h
        omega
    have hfilter : st.requests.filter (fun x => decide (t - 60000 < x))
        = A.filter (fun x => decide (t - 60000 < x)) := by
      rw [hreq]
      exact filter_absorb A _ _ (by intro x hx; simp at hx ⊢; omega)
    by_cases hadm :
        st.limit ≤ (st.requests.filter (fun x => decide (t - 60000 < x))).length
    · -- the call at `t` is denied: the admitted set is unchanged
      have hstep : RateLimiter.canMakeRequest t st
          = (false, { st with
              requests := st.requests.filter (fun x => decide (t - 60000 < x)) }) := by
        simp only [RateLimiter.canMakeRequest]
        rw [if_pos hadm]
      have hAle : ∀ a ∈ A, a ≤ t := fun a ha => le_trans (hA a ha) hnow0t
      have h := ih { st with
          requests := st.requests.filter (fun x => decide (t - 60000 < x)) }
        A t hsort' hts' hAle (by simpa using hfilter) (by simpa using hcount) w
      simp only [RateLimiter.runCalls, hstep]
      rw [admittedTimes_cons]
      simpa using h
    · -- the call at `t` is admitted
      push_neg at hadm
      have hstep : RateLimiter.canMakeRequest t st
          = (true, { st with
              requests := st.requests.filter (fun x => decide (t - 60000 < x)) ++ [t] }) := by
        simp only [RateLimiter.canMakeRequest]
        rw [if_neg (by omega)]
      have hreq' : (st.requests.filter (fun x => decide (t - 60000 < x))) ++ [t]
          = (A ++ [t]).filter (fun x => decide (t - 60000 < x)) := by
        rw [hfilter, List.filter_append]
        have h1 : [t].filter (fun x => decide (t - 60000 < x)) = [t] := by
          simp
        rw [h1]
      have hcount' : ∀ w' : Int,
          ((A ++ [t]).filter (RateLimiter.inWindow w')).length ≤ st.limit := by
        intro w'
        rw [List.filter_append]
        cases hwt : RateLimiter.inWindow w' t
        · simp only [List.filter_cons, List.filter_nil, hwt, Bool.false_eq_true,
            if_false, List.append_nil]
          exact hcount w'
        · have hwin := (inWindow_eq_true w' t).mp hwt
          have hsub : ((A.filter (RateLimiter.inWindow w')).length
              ≤ (A.filter (fun x => decide (t - 60000 < x))).length) := by
            apply filter_length_mono
            intro x hx hxw
            have := (inWindow_eq_true w' x).mp hxw
            simp
            omega
          have hlen : (A.filter (fun x => decide (t - 60000 < x))).length < st.limit := by
            have := hadm
            rw [hfilter] at this
            exact this
          simp only [List.filter_cons, List.filter_nil, hwt, if_true, List.length_append,
            List.length_cons, List.length_nil]
          omega
      have h := ih { st with
          requests := st.requests.filter (fun x => decide (t - 60000 < x)) ++ [t] }
        (A ++ [t]) t hsort' hts' hA' (by simpa using hreq') (by simpa using hcount') w
      simp only [RateLimiter.runCalls, hstep]
      rw [admittedTimes_cons, if_pos rfl, ← List.append_assoc]
      exact h

set_option maxRecDepth 40000 in
/-- C6: for every sequence of `canMakeRequest()` calls at non-decreasing
timestamps with quota `N`, at most `N` admitted calls have timestamps in
any 60-second window `[w, w + 60000)` (the code keeps strictly-younger
timestamps, so the window is half-open); and concretely, of 61 calls
within one second under quota 60 the first 60 are admitted, the 61st is
denied, and `getTimeUntilNextRequest()` then reports a positive wait. -/
theorem C6_rate_limiter_quota :
    (∀ (N : Nat) (ts : List Int), List.Pairwise (fun a b => a ≤ b) ts →
      ∀ w : Int,
        ((RateLimiter.admittedTimes
            (RateLimiter.runCalls (RateLimiter.freshRL N) ts).2).filter
          (RateLimiter.inWindow w)).length ≤ N)
    ∧ (RateLimiter.runCalls (RateLimiter.freshRL 60)
          (List.replicate 61 0)).2.map (fun p => p.2)
        = List.replicate 60 true ++ [false]
    ∧ 0 < RateLimiter.getTimeUntilNextRequest 0
        (RateLimiter.runCalls (RateLimiter.freshRL 60) (List.replicate 61 0)).1 := by
  refine ⟨?_, ?_, ?_⟩
  · intro N ts hsort w
    cases ts with
    | nil => simp [RateLimiter.runCalls, RateLimiter.admittedTimes]
    | cons t ts' =>
      have hts : ∀ x ∈ t :: ts', t ≤ x := by
        intro x hx
        rcases List.mem_cons.mp hx with h | h
        · omega
        · exact (List.pairwise_cons.mp hsort).1 x h
      have h := runCalls_quota (t :: ts') (RateLimiter.freshRL N) [] t hsort hts
        (by intro a ha; simp at ha) (by simp [RateLimiter.freshRL])
        (by intro w'; simp) w
      simpa using h
  · decide
  · decide

/-- C6 witness: the quota bound applied to the concrete 61-call burst. -/
theorem C6_witness :
    ((RateLimiter.admittedTimes
        (RateLimiter.runCalls (RateLimiter.freshRL 60) (List.replicate 61 0)).2).filter
      (RateLimiter.inWindow (-1))).length ≤ 60 :=
  C6_rate_limiter_quota.1 60 (List.replicate 61 0)
    (List.pairwise_replicate.mpr (by simp)) (-1)
